import Mathlib

/-!
Verification of the leaf-level ABI element packer of go-ethereum
(`accounts/abi/pack.go`): `packBytesSlice`, `packElement`, `packNum` and
`toBigInt`, embedded shallowly.  Byte strings are `List Nat` (each entry a
byte value), Go's `(bytes, error)` return pairs are the `PackOut` type
below, and reflection-dispatched application values are the closed
`Value` type.
-/

/-- Big-endian rendering of a natural number into exactly `w` bytes
(the value is taken modulo `256^w`). -/
def natToBE : Nat → Nat → List Nat
  | 0, _ => []
  | w + 1, n => natToBE w (n / 256) ++ [n % 256]

/-- The numeric value of a big-endian byte string. -/
def beVal (bs : List Nat) : Nat := bs.foldl (fun a b => 256 * a + b) 0

/-- Modelled from the spec: `common.RightPadBytes` — right-pad a byte
slice with zero bytes up to length `l`; a slice already at least `l`
bytes long is returned unchanged (never truncated). -/
def rightPadBytes (slice : List Nat) (l : Nat) : List Nat :=
  if l ≤ slice.length then slice else slice ++ List.replicate (l - slice.length) 0

/-- Modelled from the spec: `common.LeftPadBytes` — left-pad a byte
slice with zero bytes up to length `l`; a slice already at least `l`
bytes long is returned unchanged (never truncated). -/
def leftPadBytes (slice : List Nat) (l : Nat) : List Nat :=
  if l ≤ slice.length then slice else List.replicate (l - slice.length) 0 ++ slice

/-- The Go unsigned machine-integer types dispatched on by `packNum`
(`reflect.Uint, Uint8, Uint16, Uint32, Uint64`). -/
inductive UintKind where
  | u | u8 | u16 | u32 | u64
  deriving DecidableEq

/-- The Go signed machine-integer types dispatched on by `packNum`
(`reflect.Int, Int8, Int16, Int32, Int64`). -/
inductive IntKind where
  | i | i8 | i16 | i32 | i64
  deriving DecidableEq

/-- An application value handed to the packer, mirroring the runtime
shapes the Go code distinguishes with `reflect`: machine integers,
a `*big.Int`, a string, a bool, a `[]byte` slice, a fixed-size byte
array `[N]byte`, and a `common.Address` (itself a 20-byte array). -/
inductive Value where
  | vUint (k : UintKind) (n : Nat)
  | vInt (k : IntKind) (n : Int)
  | vBigInt (n : Int)
  | vString (s : String)
  | vBool (b : Bool)
  | vBytes (bs : List Nat)
  | vArray (bs : List Nat)
  | vAddress (bs : List Nat)
  deriving DecidableEq

/-- The abstract type tags `packElement` switches on (`t.T`); `otherTy`
stands for every tag not handled by a case of the switch. -/
inductive Ty where
  | intTy | uintTy | stringTy | addressTy | boolTy | bytesTy
  | fixedBytesTy | functionTy
  | otherTy (code : Nat)
  deriving DecidableEq

/-- The error taxonomy of the packer (spec section 7), one constructor
per error site of the source. -/
inductive PackErr where
  | invalidNumericString (s : String)
  | unsupportedNumericType (kind : String)
  | typeMismatch (msg : String)
  | invalidAddress (s : String)
  | unsupportedElementType (code : Nat)
  deriving DecidableEq

/-- The outcome of a packing call: the Go `(bytes, error)` pair, or a
runtime panic (reflect misuse such as `Value.Bool` on a non-bool). -/
inductive PackOut where
  | ret (bytes : List Nat) (err : Option PackErr)
  | goPanic
  deriving DecidableEq

/-- The `reflect.Kind` name of a value, as the `%v` formatting of
`value.Kind()` renders it in the error messages of the source. -/
def kindName : Value → String
  | .vUint .u _ => "uint"
  | .vUint .u8 _ => "uint8"
  | .vUint .u16 _ => "uint16"
  | .vUint .u32 _ => "uint32"
  | .vUint .u64 _ => "uint64"
  | .vInt .i _ => "int"
  | .vInt .i8 _ => "int8"
  | .vInt .i16 _ => "int16"
  | .vInt .i32 _ => "int32"
  | .vInt .i64 _ => "int64"
  | .vBigInt _ => "ptr"
  | .vString _ => "string"
  | .vBool _ => "bool"
  | .vBytes _ => "slice"
  | .vArray _ => "array"
  | .vAddress _ => "array"

/-- Modelled from the spec: `math.U256Bytes` — the 32-byte big-endian
two's-complement encoding of an arbitrary-precision integer reduced
modulo `2^256` ("U256 wraparound semantics"). -/
def u256Bytes (v : Int) : List Nat := natToBE 32 (v % 2 ^ 256).toNat

/-- An ASCII decimal digit. -/
def decDigit (c : Char) : Bool := '0' ≤ c && c ≤ '9'

/-- Value of a non-empty all-digit character list, accumulator style;
`none` as soon as a non-digit is met. -/
def decDigitsVal : List Char → Nat → Option Nat
  | [], acc => some acc
  | c :: rest, acc =>
      if decDigit c then decDigitsVal rest (acc * 10 + (c.toNat - '0'.toNat))
      else none

/-- Go standard library `big.Int.SetString(s, 10)`: an optional single
leading `+` or `-` sign followed by one or more ASCII decimal digits,
the whole string consumed; anything else fails. -/
def bigIntSetString10 (s : String) : Option Int :=
  match s.data with
  | [] => none
  | '+' :: rest =>
      match rest with
      | [] => none
      | _ => (decDigitsVal rest 0).map Int.ofNat
  | '-' :: rest =>
      match rest with
      | [] => none
      | _ => (decDigitsVal rest 0).map (fun n => -(Int.ofNat n))
  | cs => (decDigitsVal cs 0).map Int.ofNat

/-- Embedding of `toBigInt` of the extended revision: a best-effort conversion to
`*big.Int`, succeeding only for the Go types `int`, `int64`, and a
base-10-parseable `string`. -/
def toBigInt : Value → Option Int
  | .vInt .i n => some n
  | .vInt .i64 n => some n
  | .vString s => bigIntSetString10 s
  | _ => none

/-- Embedding of `packNum` of the extended revision (`pack.go`): dispatch on the
reflect kind; unsigned and signed machine integers and `*big.Int`
(a `Ptr` kind) are reduced into the 256-bit ring, a string is parsed
base 10, and any other kind goes through `toBigInt` before failing.
The dead re-check of `*big.Int` in the default branch of the source is
subsumed here by the `Ptr` case, the only shape carrying a `*big.Int`. -/
def packNum : Value → PackOut
  | .vUint _ n => .ret (u256Bytes (Int.ofNat n)) none
  | .vInt _ n => .ret (u256Bytes n) none
  | .vBigInt n => .ret (u256Bytes n) none
  | .vString s =>
      match bigIntSetString10 s with
      | some n => .ret (u256Bytes n) none
      | none => .ret [] (some (.invalidNumericString s))
  | v =>
      match toBigInt v with
      | some n => .ret (u256Bytes n) none
      | none => .ret [] (some (.unsupportedNumericType (kindName v)))

/-- Embedding of `packNum` of the earlier revision (`src/unnamed/part_000`): same
dispatch, but unknown kinds fail immediately with no conversion
attempt. -/
def packNum0 : Value → PackOut
  | .vUint _ n => .ret (u256Bytes (Int.ofNat n)) none
  | .vInt _ n => .ret (u256Bytes n) none
  | .vBigInt n => .ret (u256Bytes n) none
  | .vString s =>
      match bigIntSetString10 s with
      | some n => .ret (u256Bytes n) none
      | none => .ret [] (some (.invalidNumericString s))
  | v => .ret [] (some (.unsupportedNumericType (kindName v)))

/-- Embedding of `packBytesSlice`: pack `bytes` as `[L, V]` — the packed length
word for `l` (a Go `int`, here a non-negative length) followed by the
payload right-padded to the next multiple of 32 bytes. -/
def packBytesSlice (bytes : List Nat) (l : Nat) : PackOut :=
  match packNum (.vInt .i (Int.ofNat l)) with
  | .ret lenWord none => .ret (lenWord ++ rightPadBytes bytes ((l + 31) / 32 * 32)) none
  | .ret _ (some e) => .ret [] (some e)
  | .goPanic => .goPanic

/-- An ASCII hexadecimal digit. -/
def isHexDigitCh (c : Char) : Bool :=
  (('0' ≤ c && c ≤ '9') || ('a' ≤ c && c ≤ 'f')) || ('A' ≤ c && c ≤ 'F')

/-- Value of an ASCII hexadecimal digit (0 for a non-digit). -/
def hexVal (c : Char) : Nat :=
  if '0' ≤ c && c ≤ '9' then c.toNat - '0'.toNat
  else if 'a' ≤ c && c ≤ 'f' then c.toNat - 'a'.toNat + 10
  else if 'A' ≤ c && c ≤ 'F' then c.toNat - 'A'.toNat + 10
  else 0

/-- Decode hex-digit pairs into bytes, stopping at the first pair that
is not two hex digits (the tolerant decode of `common.Hex2Bytes`,
which keeps the prefix decoded before an error). -/
def decodeHexPairs : List Char → List Nat
  | a :: b :: rest =>
      if isHexDigitCh a && isHexDigitCh b then
        (hexVal a * 16 + hexVal b) :: decodeHexPairs rest
      else []
  | _ => []

/-- Drop a leading `0x` or `0X` from a character list. -/
def dropHex0x : List Char → List Char
  | '0' :: 'x' :: rest => rest
  | '0' :: 'X' :: rest => rest
  | cs => cs

/-- Modelled from the spec: `common.BytesToAddress` — keep the last 20
bytes, left-padding shorter input with zero bytes to 20. -/
def bytesToAddress (bs : List Nat) : List Nat :=
  if 20 < bs.length then bs.drop (bs.length - 20)
  else List.replicate (20 - bs.length) 0 ++ bs

/-- Modelled from the spec: `common.HexToAddress` — parse the hex
string into a 20-byte address: strip an optional `0x`/`0X`, fix an
odd digit count with a leading `0`, decode tolerantly, and keep the
last 20 bytes. -/
def hexToAddress (s : String) : List Nat :=
  let cs := dropHex0x s.data
  let cs := if cs.length % 2 = 1 then '0' :: cs else cs
  bytesToAddress (decodeHexPairs cs)

/-- Lowercase hex character for a value below 16. -/
def hexChar (n : Nat) : Char :=
  if n < 10 then Char.ofNat ('0'.toNat + n) else Char.ofNat ('a'.toNat + n - 10)

/-- Modelled from the spec: `common.Address.Hex` — the canonical
`0x`-prefixed hex rendering of a 20-byte address.  The source applies
EIP-55 mixed-case checksumming (via Keccak-256, outside this core);
here the canonical rendering is modelled as the lowercase hex string.
The theorems below depend only on whether this canonical rendering
equals the input string, not on its particular casing. -/
def addressHex (a : List Nat) : String :=
  ⟨'0' :: 'x' :: (a.map (fun b => [hexChar (b / 16), hexChar (b % 16)])).flatten⟩

/-- The literal all-zero address string exempted from the round-trip
check in the `AddressTy` branch. -/
def zeroAddressStr : String := "0x0000000000000000000000000000000000000000"

/-- The UTF-8 bytes of a character (Go `[]byte(string)` encoding). -/
def utf8Bytes (c : Char) : List Nat :=
  let n := c.toNat
  if n < 128 then [n]
  else if n < 2048 then [192 + n / 64, 128 + n % 64]
  else if n < 65536 then [224 + n / 4096, 128 + n / 64 % 64, 128 + n % 64]
  else [240 + n / 262144, 128 + n / 4096 % 64, 128 + n / 64 % 64, 128 + n % 64]

/-- The byte string of a Go string: its UTF-8 encoding (`[]byte(v)`);
its length is what Go's `len` returns on the string. -/
def strBytes (s : String) : List Nat := (s.data.map utf8Bytes).flatten

/-- Embedding of `mustArrayToByteSlice`: normalize a fixed-size byte array to a
byte slice of identical contents and order (spec's array-to-slice
helper); on `List Nat` contents this is the identity. -/
def mustArrayToByteSlice (bs : List Nat) : List Nat := bs

/-- Embedding of `packElement` of the extended revision (`pack.go`): dispatch on
the abstract type tag and pack one element.  Branches that the Go
runtime would abort with a panic (`reflect.Value.Bool` on a non-bool,
`reflect.Value.Bytes` on a non-byte-shaped value) produce `goPanic`. -/
def packElement : Ty → Value → PackOut
  | .intTy, v => packNum v
  | .uintTy, v => packNum v
  | .stringTy, v =>
      match v with
      | .vString s => packBytesSlice (strBytes s) (strBytes s).length
      | _ => .ret [] (some (.typeMismatch "String type is not string"))
  | .addressTy, v =>
      match v with
      | .vString addr =>
          let a := hexToAddress addr
          if addr ≠ zeroAddressStr then
            if addressHex a ≠ addr then .ret [] (some (.invalidAddress addr))
            else .ret (leftPadBytes (mustArrayToByteSlice a) 32) none
          else .ret (leftPadBytes (mustArrayToByteSlice a) 32) none
      | .vBytes bs => .ret (leftPadBytes bs 32) none
      | .vArray bs => .ret (leftPadBytes (mustArrayToByteSlice bs) 32) none
      | .vAddress bs => .ret (leftPadBytes (mustArrayToByteSlice bs) 32) none
      | _ => .ret [] (some (.typeMismatch "invalid address"))
  | .boolTy, v =>
      match v with
      | .vBool b => .ret (natToBE 32 (if b then 1 else 0)) none
      | _ => .goPanic
  | .bytesTy, v =>
      match v with
      | .vBytes bs => packBytesSlice bs bs.length
      | .vArray bs => packBytesSlice (mustArrayToByteSlice bs) (mustArrayToByteSlice bs).length
      | .vAddress bs => packBytesSlice (mustArrayToByteSlice bs) (mustArrayToByteSlice bs).length
      | _ => .ret [] (some (.typeMismatch "Bytes type is neither slice nor array"))
  | .fixedBytesTy, v =>
      match v with
      | .vBytes bs => .ret (rightPadBytes bs 32) none
      | .vArray bs => .ret (rightPadBytes (mustArrayToByteSlice bs) 32) none
      | .vAddress bs => .ret (rightPadBytes (mustArrayToByteSlice bs) 32) none
      | _ => .goPanic
  | .functionTy, v =>
      match v with
      | .vBytes bs => .ret (rightPadBytes bs 32) none
      | .vArray bs => .ret (rightPadBytes (mustArrayToByteSlice bs) 32) none
      | .vAddress bs => .ret (rightPadBytes (mustArrayToByteSlice bs) 32) none
      | _ => .goPanic
  | .otherTy code, _ => .ret [] (some (.unsupportedElementType code))

/-- The integer a numeric input represents, when it represents one:
the unsigned value of an unsigned machine integer, the signed value
of a signed machine integer or `*big.Int`, the parse of a decimal
string.  Used to state what `packNum` encodes. -/
def numericValueOf : Value → Option Int
  | .vUint _ n => some (Int.ofNat n)
  | .vInt _ n => some n
  | .vBigInt n => some n
  | .vString s => bigIntSetString10 s
  | _ => none

/-- Whether a value's reflect kind is one of the explicit numeric
cases of `packNum`'s switch. -/
def numericShape : Value → Bool
  | .vUint _ _ => true
  | .vInt _ _ => true
  | .vBigInt _ => true
  | .vString _ => true
  | _ => false

/-- Whether a value is a text string. -/
def isVString : Value → Bool
  | .vString _ => true
  | _ => false

/-- Physical byte length of a byte-shaped value. -/
def byteShapeLen : Value → Option Nat
  | .vBytes bs => some bs.length
  | .vArray bs => some bs.length
  | .vAddress bs => some bs.length
  | _ => none

/-- The caller contract under which packed results stay word-aligned:
byte-shaped raw input to `Address`, `FixedBytes` or `Function` is at
most one word long. -/
def fitsWord : Ty → Value → Bool
  | .addressTy, v => match byteShapeLen v with | some k => k ≤ 32 | none => true
  | .fixedBytesTy, v => match byteShapeLen v with | some k => k ≤ 32 | none => true
  | .functionTy, v => match byteShapeLen v with | some k => k ≤ 32 | none => true
  | _, _ => true

theorem natToBE_length (w : Nat) : ∀ n, (natToBE w n).length = w := by
  induction w with
  | zero => intro n; rfl
  | succ w ih =>
      intro n
      simp [natToBE, List.length_append, ih]

theorem beVal_natToBE (w : Nat) : ∀ n, n < 256 ^ w → beVal (natToBE w n) = n := by
  induction w with
  | zero =>
      intro n h
      have : n = 0 := by omega
      subst this; rfl
  | succ w ih =>
      intro n h
      have hdiv : n / 256 < 256 ^ w := by
        rw [Nat.div_lt_iff_lt_mul (by norm_num : 0 < 256)]
        calc n < 256 ^ (w + 1) := h
          _ = 256 ^ w * 256 := by rw [pow_succ]
      have hrec := ih (n / 256) hdiv
      show beVal (natToBE w (n / 256) ++ [n % 256]) = n
      unfold beVal at hrec ⊢
      rw [List.foldl_append, hrec]
      simp [List.foldl]
      omega

theorem rightPadBytes_length (b : List Nat) (l : Nat) :
    (rightPadBytes b l).length = max b.length l := by
  unfold rightPadBytes
  split <;> simp [List.length_append, List.length_replicate] <;> omega

theorem leftPadBytes_length (b : List Nat) (l : Nat) :
    (leftPadBytes b l).length = max b.length l := by
  unfold leftPadBytes
  split <;> simp [List.length_append, List.length_replicate] <;> omega

theorem bytesToAddress_length (bs : List Nat) : (bytesToAddress bs).length = 20 := by
  unfold bytesToAddress
  split <;> simp [List.length_append, List.length_replicate, List.length_drop] <;> omega

theorem hexToAddress_length (s : String) : (hexToAddress s).length = 20 := by
  unfold hexToAddress
  exact bytesToAddress_length _

theorem u256Bytes_length (v : Int) : (u256Bytes v).length = 32 :=
  natToBE_length 32 _

set_option maxRecDepth 4000 in
theorem u256_toNat_lt (v : Int) : (v % 2 ^ 256).toNat < 256 ^ 32 := by
  have hpos : (0 : Int) < 2 ^ 256 := by positivity
  have hlt : v % 2 ^ 256 < 2 ^ 256 := Int.emod_lt_of_pos v hpos
  have h2 : ((256 : Nat) ^ 32 : Int) = 2 ^ 256 := by push_cast
  omega

theorem beVal_u256Bytes (v : Int) : beVal (u256Bytes v) = (v % 2 ^ 256).toNat :=
  beVal_natToBE 32 _ (u256_toNat_lt v)

/-- Claim C1: for every supported numeric input (unsigned or signed machine
integer of any width, arbitrary-precision integer, or valid decimal
string), `packNum` returns exactly 32 bytes holding the big-endian
encoding of the value reduced modulo `2^256`; negative values are
encoded via 256-bit two's complement, and magnitude overflow never
produces an error, only modular wraparound. -/
theorem packNum_encodes_mod_2_pow_256 (v : Value) (n : Int)
    (h : numericValueOf v = some n) :
    packNum v = .ret (natToBE 32 (n % 2 ^ 256).toNat) none ∧
    (natToBE 32 (n % 2 ^ 256).toNat).length = 32 ∧
    beVal (natToBE 32 (n % 2 ^ 256).toNat) = (n % 2 ^ 256).toNat := by
  refine ⟨?_, natToBE_length 32 _, beVal_natToBE 32 _ (u256_toNat_lt n)⟩
  cases v with
  | vUint k m =>
      simp [numericValueOf] at h
      simp [packNum, u256Bytes, h]
  | vInt k m =>
      simp [numericValueOf] at h
      simp [packNum, u256Bytes, h]
  | vBigInt m =>
      simp [numericValueOf] at h
      simp [packNum, u256Bytes, h]
  | vString s =>
      simp [numericValueOf] at h
      simp [packNum, u256Bytes, h]
  | vBool b => simp [numericValueOf] at h
  | vBytes bs => simp [numericValueOf] at h
  | vArray bs => simp [numericValueOf] at h
  | vAddress bs => simp [numericValueOf] at h

set_option maxRecDepth 10000 in
/-- Witness for C1 at the signed machine integer `-1`: its packed form
is 32 bytes of `0xFF` with no error. -/
theorem packNum_encodes_mod_2_pow_256_witness :
    numericValueOf (.vInt .i64 (-1)) = some (-1) ∧
    packNum (.vInt .i64 (-1)) = .ret (List.replicate 32 255) none := by
  have h := (packNum_encodes_mod_2_pow_256 (.vInt .i64 (-1)) (-1) rfl).1
  refine ⟨rfl, ?_⟩
  rw [h]
  decide

/-- Claim C2: `packBytesSlice p l` returns the 32-byte packed-number
encoding of `l` followed by `p` right-padded with zero bytes to
`ceil(l/32)*32` bytes; a payload already longer than that target is
not truncated and appears in full after the length word. -/
theorem packBytesSlice_len_prefix_spec (p : List Nat) (l : Nat) :
    packBytesSlice p l =
      .ret (u256Bytes (Int.ofNat l) ++ rightPadBytes p ((l + 31) / 32 * 32)) none ∧
    packNum (.vInt .i (Int.ofNat l)) = .ret (u256Bytes (Int.ofNat l)) none ∧
    (u256Bytes (Int.ofNat l)).length = 32 ∧
    ((l + 31) / 32 * 32 ≤ p.length → rightPadBytes p ((l + 31) / 32 * 32) = p) := by
  refine ⟨rfl, rfl, u256Bytes_length _, fun h => ?_⟩
  unfold rightPadBytes
  rw [if_pos h]

/-- Witness for C2 at a 33-byte payload with declared length 0: the
padded target is no longer than the payload, so the payload is kept
whole, untruncated. -/
theorem packBytesSlice_len_prefix_spec_witness :
    (0 + 31) / 32 * 32 ≤ (List.replicate 33 (0 : Nat)).length ∧
    rightPadBytes (List.replicate 33 (0 : Nat)) ((0 + 31) / 32 * 32) =
      List.replicate 33 0 :=
  ⟨by decide, (packBytesSlice_len_prefix_spec (List.replicate 33 0) 0).2.2.2 (by decide)⟩

/-- Claim C5: a decimal-string input to `packNum` that parses as a base-10
integer literal is encoded as its 32-byte word, and a string that does
not parse fails with the invalid-numeric-string error and an empty
byte result. -/
theorem packNum_decimal_string (s : String) :
    (∀ n : Int, bigIntSetString10 s = some n →
      packNum (.vString s) = .ret (u256Bytes n) none ∧ (u256Bytes n).length = 32) ∧
    (bigIntSetString10 s = none →
      packNum (.vString s) = .ret [] (some (.invalidNumericString s))) := by
  constructor
  · intro n h
    exact ⟨by simp [packNum, h], u256Bytes_length n⟩
  · intro h
    simp [packNum, h]

/-- Witness for C5 at the strings `"123"` (valid) and `"abc"`
(invalid). -/
theorem packNum_decimal_string_witness :
    bigIntSetString10 "123" = some 123 ∧
    packNum (.vString "123") = .ret (u256Bytes 123) none ∧
    bigIntSetString10 "abc" = none ∧
    packNum (.vString "abc") = .ret [] (some (.invalidNumericString "abc")) :=
  ⟨by decide, ((packNum_decimal_string "123").1 123 (by decide)).1, by decide,
    (packNum_decimal_string "abc").2 (by decide)⟩

/-- Claim C6: a value whose shape is none of the recognized numeric forms
has no conversion path through `toBigInt`, and `packNum` fails on it
with the unsupported-numeric-type error (carrying the offending
reflect kind) and an empty byte result; the earlier revision
`packNum0` fails identically, just with no conversion attempt. -/
theorem packNum_unsupported_shapes (v : Value) (h : numericShape v = false) :
    toBigInt v = none ∧
    packNum v = .ret [] (some (.unsupportedNumericType (kindName v))) ∧
    packNum0 v = .ret [] (some (.unsupportedNumericType (kindName v))) := by
  cases v <;> simp_all [numericShape, toBigInt, packNum, packNum0]

/-- Witness for C6 at a boolean value handed to the number packer. -/
theorem packNum_unsupported_shapes_witness :
    numericShape (.vBool true) = false ∧
    toBigInt (.vBool true) = none ∧
    packNum (.vBool true) = .ret [] (some (.unsupportedNumericType "bool")) := by
  have h := packNum_unsupported_shapes (.vBool true) rfl
  exact ⟨rfl, h.1, h.2.1⟩

theorem rightPad32_eq (bs : List Nat) (h : bs.length ≤ 32) :
    rightPadBytes bs 32 = bs ++ List.replicate (32 - bs.length) 0 := by
  unfold rightPadBytes
  by_cases h32 : 32 ≤ bs.length
  · have hz : 32 - bs.length = 0 := by omega
    rw [if_pos h32, hz]
    simp
  · rw [if_neg h32]

theorem leftPad32_eq (bs : List Nat) (h : bs.length ≤ 32) :
    leftPadBytes bs 32 = List.replicate (32 - bs.length) 0 ++ bs := by
  unfold leftPadBytes
  by_cases h32 : 32 ≤ bs.length
  · have hz : 32 - bs.length = 0 := by omega
    rw [if_pos h32, hz]
    simp
  · rw [if_neg h32]

/-- Claim C4: packing a textual address whose canonical hex rendering does
not round-trip to the input string fails with the invalid-address
error when the input is not the literal all-zero address string, and
the literal all-zero address string packs to the all-zero 32-byte
word with no error. -/
theorem packElement_address_string_roundtrip (s : String)
    (hz : s ≠ zeroAddressStr) (hc : addressHex (hexToAddress s) ≠ s) :
    packElement .addressTy (.vString s) = .ret [] (some (.invalidAddress s)) ∧
    packElement .addressTy (.vString zeroAddressStr) =
      .ret (List.replicate 32 0) none := by
  constructor
  · simp [packElement, hz, hc]
  · have hv : packElement .addressTy (.vString zeroAddressStr) =
        .ret (leftPadBytes (mustArrayToByteSlice (hexToAddress zeroAddressStr)) 32) none := by
      simp [packElement]
    rw [hv]
    decide

/-- Witness for C4 at the non-canonical input string `0xff`. -/
theorem packElement_address_string_roundtrip_witness :
    ("0xff" ≠ zeroAddressStr) ∧
    (addressHex (hexToAddress "0xff") ≠ "0xff") ∧
    packElement .addressTy (.vString "0xff") =
      .ret [] (some (.invalidAddress "0xff")) :=
  ⟨by decide, by decide,
    (packElement_address_string_roundtrip "0xff" (by decide) (by decide)).1⟩

/-- Claim C7: the `Address` branch pads a 20-byte address value on the left
with zero bytes to form the 32-byte word, whereas the `FixedBytes` and
`Function` branches pad the byte value on the right with zero bytes. -/
theorem packElement_padding_directions (a bs : List Nat)
    (ha : a.length = 20) (hbs : bs.length ≤ 32) :
    packElement .addressTy (.vAddress a) = .ret (List.replicate 12 0 ++ a) none ∧
    packElement .fixedBytesTy (.vArray bs) =
      .ret (bs ++ List.replicate (32 - bs.length) 0) none ∧
    packElement .functionTy (.vArray bs) =
      .ret (bs ++ List.replicate (32 - bs.length) 0) none := by
  have ha32 : a.length ≤ 32 := by omega
  refine ⟨?_, ?_, ?_⟩
  · simp [packElement, mustArrayToByteSlice, leftPad32_eq a ha32, ha]
  · simp [packElement, mustArrayToByteSlice, rightPad32_eq bs hbs]
  · simp [packElement, mustArrayToByteSlice, rightPad32_eq bs hbs]

/-- Witness for C7 at a concrete 20-byte address and a 2-byte fixed
array. -/
theorem packElement_padding_directions_witness :
    (List.replicate 20 (7 : Nat)).length = 20 ∧
    ([1, 2] : List Nat).length ≤ 32 ∧
    packElement .addressTy (.vAddress (List.replicate 20 7)) =
      .ret (List.replicate 12 0 ++ List.replicate 20 7) none ∧
    packElement .fixedBytesTy (.vArray [1, 2]) =
      .ret ([1, 2] ++ List.replicate 30 0) none := by
  have h := packElement_padding_directions (List.replicate 20 7) [1, 2] (by decide) (by decide)
  exact ⟨by decide, by decide, h.1, h.2.1⟩

/-- Claim C8: the `String` branch fails with the type-mismatch error and an
empty byte result on every value that is not a text string, and packs
a text string length-prefixed with the string's byte length as the
logical length. -/
theorem packElement_string_dispatch (v : Value) (s : String) :
    (isVString v = false →
      packElement .stringTy v =
        .ret [] (some (.typeMismatch "String type is not string"))) ∧
    packElement .stringTy (.vString s) =
      .ret (u256Bytes (Int.ofNat (strBytes s).length) ++
        rightPadBytes (strBytes s) (((strBytes s).length + 31) / 32 * 32)) none := by
  constructor
  · intro h
    cases v <;> simp_all [isVString, packElement]
  · rfl

set_option maxRecDepth 10000 in
/-- Witness for C8 at a boolean value and at the string `hi`. -/
theorem packElement_string_dispatch_witness :
    isVString (.vBool true) = false ∧
    packElement .stringTy (.vBool true) =
      .ret [] (some (.typeMismatch "String type is not string")) ∧
    packElement .stringTy (.vString "hi") =
      .ret (u256Bytes 2 ++ rightPadBytes [104, 105] 32) none := by
  have h := packElement_string_dispatch (.vBool true) "hi"
  refine ⟨rfl, h.1 rfl, ?_⟩
  rw [h.2]
  decide

/-- Claim C10: the `Address` branch performs no length check on raw byte
input — a byte slice or byte array of any length up to 32 bytes packs
successfully into that byte sequence left-padded with zero bytes to
32 bytes, with no error for a non-20-byte value. -/
theorem packElement_address_raw_bytes (bs : List Nat) (h : bs.length ≤ 32) :
    packElement .addressTy (.vBytes bs) =
      .ret (List.replicate (32 - bs.length) 0 ++ bs) none ∧
    packElement .addressTy (.vArray bs) =
      .ret (List.replicate (32 - bs.length) 0 ++ bs) none := by
  constructor <;> simp [packElement, mustArrayToByteSlice, leftPad32_eq bs h]

/-- Witness for C10 at a 2-byte raw input, which is not 20 bytes and
still packs without error. -/
theorem packElement_address_raw_bytes_witness :
    ([1, 2] : List Nat).length ≤ 32 ∧
    packElement .addressTy (.vBytes [1, 2]) =
      .ret (List.replicate 30 0 ++ [1, 2]) none ∧
    packElement .addressTy (.vArray [1, 2]) =
      .ret (List.replicate 30 0 ++ [1, 2]) none := by
  have h := packElement_address_raw_bytes [1, 2] (by decide)
  exact ⟨by decide, h.1, h.2⟩

/-- Claim C9: whenever any of the three packing operations returns an
error, the byte result accompanying it is empty — never a partial
encoding. -/
theorem pack_errors_carry_empty_bytes :
    (∀ v bs e, packNum v = .ret bs (some e) → bs = []) ∧
    (∀ p l bs e, packBytesSlice p l = .ret bs (some e) → bs = []) ∧
    (∀ t v bs e, packElement t v = .ret bs (some e) → bs = []) := by
  have hnum : ∀ v bs e, packNum v = .ret bs (some e) → bs = [] := by
    intro v bs e h
    cases v with
    | vUint k m => simp [packNum] at h
    | vInt k m => simp [packNum] at h
    | vBigInt m => simp [packNum] at h
    | vString s =>
        cases hbs : bigIntSetString10 s with
        | some n => simp [packNum, hbs] at h
        | none =>
            simp [packNum, hbs] at h
            exact h.1
    | vBool b =>
        simp [packNum, toBigInt] at h
        exact h.1
    | vBytes l =>
        simp [packNum, toBigInt] at h
        exact h.1
    | vArray l =>
        simp [packNum, toBigInt] at h
        exact h.1
    | vAddress l =>
        simp [packNum, toBigInt] at h
        exact h.1
  have hslice : ∀ p l bs e, packBytesSlice p l = .ret bs (some e) → bs = [] := by
    intro p l bs e h
    simp [packBytesSlice, packNum] at h
  refine ⟨hnum, hslice, ?_⟩
  intro t v bs e h
  cases t with
  | intTy => exact hnum v bs e h
  | uintTy => exact hnum v bs e h
  | stringTy =>
      cases v with
      | vString s => exact hslice _ _ bs e h
      | vUint k m => simp [packElement] at h; exact h.1
      | vInt k m => simp [packElement] at h; exact h.1
      | vBigInt m => simp [packElement] at h; exact h.1
      | vBool b => simp [packElement] at h; exact h.1
      | vBytes l => simp [packElement] at h; exact h.1
      | vArray l => simp [packElement] at h; exact h.1
      | vAddress l => simp [packElement] at h; exact h.1
  | addressTy =>
      cases v with
      | vString s =>
          simp only [packElement] at h
          split_ifs at h
          · simp at h; exact h.1
          · simp at h
          · simp at h
      | vUint k m => simp [packElement] at h; exact h.1
      | vInt k m => simp [packElement] at h; exact h.1
      | vBigInt m => simp [packElement] at h; exact h.1
      | vBool b => simp [packElement] at h; exact h.1
      | vBytes l => simp [packElement] at h
      | vArray l => simp [packElement] at h
      | vAddress l => simp [packElement] at h
  | boolTy =>
      cases v with
      | vBool b => simp [packElement] at h
      | vUint k m => simp [packElement] at h
      | vInt k m => simp [packElement] at h
      | vBigInt m => simp [packElement] at h
      | vString s => simp [packElement] at h
      | vBytes l => simp [packElement] at h
      | vArray l => simp [packElement] at h
      | vAddress l => simp [packElement] at h
  | bytesTy =>
      cases v with
      | vBytes l => exact hslice _ _ bs e h
      | vArray l => exact hslice _ _ bs e h
      | vAddress l => exact hslice _ _ bs e h
      | vUint k m => simp [packElement] at h; exact h.1
      | vInt k m => simp [packElement] at h; exact h.1
      | vBigInt m => simp [packElement] at h; exact h.1
      | vString s => simp [packElement] at h; exact h.1
      | vBool b => simp [packElement] at h; exact h.1
  | fixedBytesTy =>
      cases v with
      | vBytes l => simp [packElement] at h
      | vArray l => simp [packElement] at h
      | vAddress l => simp [packElement] at h
      | vUint k m => simp [packElement] at h
      | vInt k m => simp [packElement] at h
      | vBigInt m => simp [packElement] at h
      | vString s => simp [packElement] at h
      | vBool b => simp [packElement] at h
  | functionTy =>
      cases v with
      | vBytes l => simp [packElement] at h
      | vArray l => simp [packElement] at h
      | vAddress l => simp [packElement] at h
      | vUint k m => simp [packElement] at h
      | vInt k m => simp [packElement] at h
      | vBigInt m => simp [packElement] at h
      | vString s => simp [packElement] at h
      | vBool b => simp [packElement] at h
  | otherTy code =>
      simp [packElement] at h
      exact h.1

/-- Witness for C9 at a failing call: a boolean given to the `String`
branch errors with an empty byte result. -/
theorem pack_errors_carry_empty_bytes_witness :
    packElement .stringTy (.vBool true) =
      .ret [] (some (.typeMismatch "String type is not string")) ∧
    ([] : List Nat) = [] :=
  ⟨rfl, pack_errors_carry_empty_bytes.2.2 .stringTy (.vBool true) []
    (.typeMismatch "String type is not string") rfl⟩

theorem ret_bytes_eq {A bs : List Nat} {e1 e2 : Option PackErr}
    (h : PackOut.ret A e1 = PackOut.ret bs e2) : bs = A := by
  injection h with h1 h2
  exact h1.symm

theorem le_padded_target (l : Nat) : l ≤ (l + 31) / 32 * 32 := by omega

theorem packNum_cases (v : Value) :
    (∃ n, packNum v = .ret (u256Bytes n) none) ∨
    (∃ e, packNum v = .ret [] (some e)) := by
  cases v with
  | vString s =>
      cases hbs : bigIntSetString10 s with
      | some n => exact .inl ⟨n, by simp [packNum, hbs]⟩
      | none => exact .inr ⟨.invalidNumericString s, by simp [packNum, hbs]⟩
  | vUint k m => exact .inl ⟨_, rfl⟩
  | vInt k m => exact .inl ⟨_, rfl⟩
  | vBigInt m => exact .inl ⟨_, rfl⟩
  | vBool b => exact .inr ⟨_, rfl⟩
  | vBytes l => exact .inr ⟨_, rfl⟩
  | vArray l => exact .inr ⟨_, rfl⟩
  | vAddress l => exact .inr ⟨_, rfl⟩

set_option maxRecDepth 10000 in
/-- Counterexample to C3 as stated: with a 33-byte payload and
declared length 0, `packBytesSlice` returns 65 bytes, and a 33-byte
raw byte slice given to the `Address` branch of `packElement` comes
back as 33 bytes — in both cases a successful result whose length is
not a multiple of 32. -/
theorem pack_result_alignment_counterexample :
    packBytesSlice (List.replicate 33 0) 0 =
      .ret (natToBE 32 0 ++ List.replicate 33 0) none ∧
    (natToBE 32 0 ++ List.replicate 33 (0 : Nat)).length % 32 = 1 ∧
    packElement .addressTy (.vBytes (List.replicate 33 0)) =
      .ret (List.replicate 33 0) none ∧
    (List.replicate 33 (0 : Nat)).length % 32 = 1 := by
  decide

/-- Claim C3 as amended: `packNum` results are always word-aligned (0 or 32
bytes), and `packBytesSlice` and `packElement` results are word-aligned
— on success and on error — whenever byte payloads respect the
documented caller contracts: the physical payload of a
length-prefixed packing does not exceed its padded target, and raw
byte input to `Address`, `FixedBytes` or `Function` is at most 32
bytes. -/
theorem pack_results_word_aligned :
    (∀ v bs err, packNum v = .ret bs err → bs.length % 32 = 0) ∧
    (∀ p l bs err, p.length ≤ (l + 31) / 32 * 32 →
      packBytesSlice p l = .ret bs err → bs.length % 32 = 0) ∧
    (∀ t v bs err, fitsWord t v = true →
      packElement t v = .ret bs err → bs.length % 32 = 0) := by
  have hnum : ∀ v bs err, packNum v = .ret bs err → bs.length % 32 = 0 := by
    intro v bs err h
    rcases packNum_cases v with ⟨n, hn⟩ | ⟨e, he⟩
    · rw [hn] at h
      rw [ret_bytes_eq h, u256Bytes_length]
    · rw [he] at h
      rw [ret_bytes_eq h]
      rfl
  have hslice : ∀ p l bs err, p.length ≤ (l + 31) / 32 * 32 →
      packBytesSlice p l = .ret bs err → bs.length % 32 = 0 := by
    intro p l bs err hp h
    rw [ret_bytes_eq h, List.length_append, u256Bytes_length,
      rightPadBytes_length, max_eq_right hp]
    omega
  refine ⟨hnum, hslice, ?_⟩
  intro t v bs err hfit h
  cases t with
  | intTy => exact hnum v bs err h
  | uintTy => exact hnum v bs err h
  | stringTy =>
      cases v with
      | vString s => exact hslice _ _ bs err (le_padded_target _) h
      | vUint k m => simp [ret_bytes_eq h]
      | vInt k m => simp [ret_bytes_eq h]
      | vBigInt m => simp [ret_bytes_eq h]
      | vBool b => simp [ret_bytes_eq h]
      | vBytes l => simp [ret_bytes_eq h]
      | vArray l => simp [ret_bytes_eq h]
      | vAddress l => simp [ret_bytes_eq h]
  | addressTy =>
      cases v with
      | vString s =>
          simp only [packElement, mustArrayToByteSlice] at h
          split_ifs at h
          · simp [ret_bytes_eq h]
          · simp [ret_bytes_eq h, leftPadBytes_length, hexToAddress_length,
              max_eq_right (show (20 : Nat) ≤ 32 by norm_num)]
          · simp [ret_bytes_eq h, leftPadBytes_length, hexToAddress_length,
              max_eq_right (show (20 : Nat) ≤ 32 by norm_num)]
      | vUint k m => simp [ret_bytes_eq h]
      | vInt k m => simp [ret_bytes_eq h]
      | vBigInt m => simp [ret_bytes_eq h]
      | vBool b => simp [ret_bytes_eq h]
      | vBytes l =>
          simp only [fitsWord, byteShapeLen, decide_eq_true_eq] at hfit
          simp [ret_bytes_eq h, mustArrayToByteSlice, leftPadBytes_length,
            max_eq_right hfit]
      | vArray l =>
          simp only [fitsWord, byteShapeLen, decide_eq_true_eq] at hfit
          simp [ret_bytes_eq h, mustArrayToByteSlice, leftPadBytes_length,
            max_eq_right hfit]
      | vAddress l =>
          simp only [fitsWord, byteShapeLen, decide_eq_true_eq] at hfit
          simp [ret_bytes_eq h, mustArrayToByteSlice, leftPadBytes_length,
            max_eq_right hfit]
  | boolTy =>
      cases v with
      | vBool b => simp [ret_bytes_eq h, natToBE_length]
      | vUint k m => exact PackOut.noConfusion h
      | vInt k m => exact PackOut.noConfusion h
      | vBigInt m => exact PackOut.noConfusion h
      | vString s => exact PackOut.noConfusion h
      | vBytes l => exact PackOut.noConfusion h
      | vArray l => exact PackOut.noConfusion h
      | vAddress l => exact PackOut.noConfusion h
  | bytesTy =>
      cases v with
      | vBytes l => exact hslice _ _ bs err (le_padded_target _) h
      | vArray l => exact hslice _ _ bs err (le_padded_target _) h
      | vAddress l => exact hslice _ _ bs err (le_padded_target _) h
      | vUint k m => simp [ret_bytes_eq h]
      | vInt k m => simp [ret_bytes_eq h]
      | vBigInt m => simp [ret_bytes_eq h]
      | vString s => simp [ret_bytes_eq h]
      | vBool b => simp [ret_bytes_eq h]
  | fixedBytesTy =>
      cases v with
      | vBytes l =>
          simp only [fitsWord, byteShapeLen, decide_eq_true_eq] at hfit
          simp [ret_bytes_eq h, mustArrayToByteSlice, rightPadBytes_length,
            max_eq_right hfit]
      | vArray l =>
          simp only [fitsWord, byteShapeLen, decide_eq_true_eq] at hfit
          simp [ret_bytes_eq h, mustArrayToByteSlice, rightPadBytes_length,
            max_eq_right hfit]
      | vAddress l =>
          simp only [fitsWord, byteShapeLen, decide_eq_true_eq] at hfit
          simp [ret_bytes_eq h, mustArrayToByteSlice, rightPadBytes_length,
            max_eq_right hfit]
      | vUint k m => exact PackOut.noConfusion h
      | vInt k m => exact PackOut.noConfusion h
      | vBigInt m => exact PackOut.noConfusion h
      | vString s => exact PackOut.noConfusion h
      | vBool b => exact PackOut.noConfusion h
  | functionTy =>
      cases v with
      | vBytes l =>
          simp only [fitsWord, byteShapeLen, decide_eq_true_eq] at hfit
          simp [ret_bytes_eq h, mustArrayToByteSlice, rightPadBytes_length,
            max_eq_right hfit]
      | vArray l =>
          simp only [fitsWord, byteShapeLen, decide_eq_true_eq] at hfit
          simp [ret_bytes_eq h, mustArrayToByteSlice, rightPadBytes_length,
            max_eq_right hfit]
      | vAddress l =>
          simp only [fitsWord, byteShapeLen, decide_eq_true_eq] at hfit
          simp [ret_bytes_eq h, mustArrayToByteSlice, rightPadBytes_length,
            max_eq_right hfit]
      | vUint k m => exact PackOut.noConfusion h
      | vInt k m => exact PackOut.noConfusion h
      | vBigInt m => exact PackOut.noConfusion h
      | vString s => exact PackOut.noConfusion h
      | vBool b => exact PackOut.noConfusion h
  | otherTy code =>
      rw [ret_bytes_eq h]
      rfl

/-- Witness for the amended C3 at the boolean word. -/
theorem pack_results_word_aligned_witness :
    fitsWord .boolTy (.vBool true) = true ∧
    packElement .boolTy (.vBool true) = .ret (natToBE 32 1) none ∧
    (natToBE 32 1).length % 32 = 0 :=
  ⟨rfl, rfl,
    pack_results_word_aligned.2.2 .boolTy (.vBool true) (natToBE 32 1) none rfl rfl⟩
